import Mathlib

/-
Verification of the FITS inspection script in src/out.py.

The script opens one FITS container, iterates over its HDUs (header data
units, called "extensions" in the specification) in index order, classifies
each one by its payload, and emits artifacts:
  - a table HDU (BinTableHDU or TableHDU) is pretty printed to the console
    with alternating ANSI colors and exported to a CSV file;
  - an HDU whose array payload has 2 or more dimensions is rendered as a
    gallery of colormapped panels and saved once as a PNG using viridis;
  - an HDU without data, or with an array of fewer than 2 dimensions, is
    skipped with a notice.
A single try/except around the whole run catches every exception, prints
the message and a stack trace, and the process then ends normally.

The embedding below is a direct translation of that loop.  Values decoded
by the external libraries are modelled as follows: a tabular payload is a
header row of column names plus a list of rows of cell strings; an array
payload is a shape (list of dimension sizes) together with its row major
flattened data as rationals.  The external calls the script makes
(astropy CSV writer, numpy percentile, astropy simple_norm, matplotlib
imshow/savefig) are modelled from their documented contracts, as noted at
each definition.
-/

/-- Tabular payload of a table HDU: ordered column names and rows of cell
values, each cell already rendered to its string form. -/
structure TableData where
  colnames : List String
  rows : List (List String)
  deriving Repr, DecidableEq

/-- Numeric array payload of an image HDU: a shape together with the row
major flattened pixel data. -/
structure NDArray where
  shape : List Nat
  data : List ℚ
  deriving Repr, DecidableEq

/-- Payload carried by an HDU.  In astropy the class of the HDU determines
the kind of its data attribute: a BinTableHDU or TableHDU carries a record
array (tabular), any other HDU with data carries a numeric array, so the
isinstance check of line 59 of src/out.py is the tag of this sum. -/
inductive Payload where
  | table (t : TableData)
  | array (a : NDArray)
  deriving Repr, DecidableEq

/-- One HDU of the opened container: its name and its optional payload. -/
structure HDU where
  name : String
  data : Option Payload
  deriving Repr, DecidableEq

/-- The four branches of the dispatch loop of src/out.py lines 50-119. -/
inductive Classification where
  | noData
  | tableBranch
  | imageBranch
  | unusual
  deriving Repr, DecidableEq

/-- Classifier of the loop body: no data, then the table branch, then the
2-or-more-dimensional image branch, else the unusual dimensions branch,
tested in the order of the source. -/
def classify (h : HDU) : Classification :=
  match h.data with
  | none => Classification.noData
  | some (Payload.table _) => Classification.tableBranch
  | some (Payload.array a) =>
      if 2 ≤ a.shape.length then Classification.imageBranch
      else Classification.unusual

/-- Branch predicate: the payload is absent (line 50 of src/out.py). -/
def hasNoDataB (h : HDU) : Bool :=
  match h.data with
  | none => true
  | some _ => false

/-- Branch predicate: the payload is tabular (line 59 of src/out.py). -/
def isTabularB (h : HDU) : Bool :=
  match h.data with
  | some (Payload.table _) => true
  | _ => false

/-- Branch predicate: the payload is an array with 2 or more dimensions
(line 73 of src/out.py). -/
def isImageLikeB (h : HDU) : Bool :=
  match h.data with
  | some (Payload.array a) => 2 ≤ a.shape.length
  | _ => false

/-- Branch predicate: the payload is an array with fewer than 2 dimensions
(the else branch, line 118 of src/out.py). -/
def isUnusualB (h : HDU) : Bool :=
  match h.data with
  | some (Payload.array a) => a.shape.length < 2
  | _ => false

/-- Flags of the four branches, used to state mutual exclusivity. -/
def branchFlags (h : HDU) : List Bool :=
  [hasNoDataB h, isTabularB h, isImageLikeB h, isUnusualB h]

/-- Index of the last occurrence of a character, minus one if absent,
mirroring the rfind used by the python path helpers. -/
def lastIndexOfAux (c : Char) : List Char → Nat → Int → Int
  | [], _, acc => acc
  | x :: xs, i, acc => lastIndexOfAux c xs (i + 1) (if x = c then Int.ofNat i else acc)

/-- Last index of a character in a list, minus one when absent. -/
def lastIndexOf (c : Char) (l : List Char) : Int :=
  lastIndexOfAux c l 0 (-1)

/-- Root part of os.path.splitext: drops the extension starting at the
last dot of the final path component, unless that component consists of
leading dots only, following the CPython genericpath implementation. -/
def pySplitextRoot (p : String) : String :=
  let l := p.toList
  let sepIndex := lastIndexOf '/' l
  let dotIndex := lastIndexOf '.' l
  if sepIndex < dotIndex then
    let nameStart := (sepIndex + 1).toNat
    let stem := (l.drop nameStart).take (dotIndex.toNat - nameStart)
    if stem.any (fun ch => ch ≠ '.') then String.mk (l.take dotIndex.toNat) else p
  else p

/-- Final component of a path, as os.path.basename on posix paths. -/
def pyBasename (p : String) : String :=
  String.mk (p.toList.drop ((lastIndexOf '/' p.toList) + 1).toNat)

/-- CSV artifact name built at lines 67-68 of src/out.py: the full input
path with its extension removed, then the 1-based table ordinal. -/
def csvFileName (fname : String) (n : Nat) : String :=
  pySplitextRoot fname ++ "_table_" ++ toString n ++ ".csv"

/-- PNG artifact name built at lines 75 and 113 of src/out.py: the base
name of the input (directory stripped, extension removed), then the HDU
index. -/
def pngFileName (fname : String) (i : Nat) : String :=
  pySplitextRoot (pyBasename fname) ++ "_hdu" ++ toString i ++ "_image.png"

/-- ANSI code of line 9 of src/out.py. -/
def CYAN : String := "\x1b[96m"

/-- ANSI code of line 10 of src/out.py. -/
def BLUE : String := "\x1b[94m"

/-- ANSI code of line 11 of src/out.py. -/
def RESET : String := "\x1b[0m"

/-- ANSI code of line 12 of src/out.py. -/
def BOLD : String := "\x1b[1m"

/-- Colored header cells of print_colored_table (line 24 of src/out.py). -/
def coloredHeaders (hs : List String) : List String :=
  hs.map (fun h => BOLD ++ CYAN ++ h ++ RESET)

/-- Colored body cells of print_colored_table (lines 26-30 of src/out.py):
even rows cyan, odd rows blue, every cell wrapped in color and reset. -/
def coloredRows (rows : List (List String)) : List (List String) :=
  rows.enum.map (fun p =>
    p.2.map (fun cell => (if p.1 % 2 = 0 then CYAN else BLUE) ++ cell ++ RESET))

/-- One CSV record: the cells joined by commas.  Models the CSV writer the
script delegates to, for cell values free of separator characters. -/
def serializeRow (cells : List String) : List Char :=
  List.intercalate [','] (cells.map String.toList)

/-- Whole CSV text written for a table: the header record followed by one
record per row, records joined by newlines. -/
def serializeCSV (t : TableData) : List Char :=
  List.intercalate ['\n'] (serializeRow t.colnames :: t.rows.map serializeRow)

/-- Splitting of a character list at every occurrence of a separator,
the inverse direction of the CSV writer. -/
def splitChar (sep : Char) : List Char → List (List Char)
  | [] => [[]]
  | c :: rest =>
      if c = sep then [] :: splitChar sep rest
      else
        match splitChar sep rest with
        | [] => [[c]]
        | p :: ps => (c :: p) :: ps

/-- Reading a CSV text back: first record is the header, the rest are the
data rows. -/
def parseCSV (content : List Char) : TableData :=
  match (splitChar '\n' content).map (fun line => (splitChar ',' line).map String.mk) with
  | [] => ⟨[], []⟩
  | hd :: tl => ⟨hd, tl⟩

/-- Insertion of a value into a sorted list of rationals. -/
def insertSorted (x : ℚ) : List ℚ → List ℚ
  | [] => [x]
  | y :: ys => if x ≤ y then x :: y :: ys else y :: insertSorted x ys

/-- Insertion sort on rationals, standing in for the sort inside the numpy
percentile routine. -/
def sortQ (l : List ℚ) : List ℚ :=
  l.foldr insertSorted []

/-- Percentile with linear interpolation, the documented default of
numpy.percentile: on sorted values the percentile q sits at fractional
position q / 100 * (n - 1) and interpolates between the two neighbours. -/
def percentileLinear (l : List ℚ) (q : ℚ) : ℚ :=
  let s := sortQ l
  match s with
  | [] => 0
  | _ :: _ =>
      let n := s.length
      let pos : ℚ := q / 100 * ((n : ℚ) - 1)
      let k : Nat := (⌊pos⌋).toNat
      let d : ℚ := pos - (k : ℚ)
      let xk := s.getD k 0
      let xk1 := s.getD (k + 1) xk
      xk + d * (xk1 - xk)

/-- Normalization object produced at line 84 of src/out.py.  Records the
stretch name and the two cut levels. -/
structure NormSpec where
  stretch : String
  vmin : ℚ
  vmax : ℚ
  deriving Repr, DecidableEq

/-- Model of astropy.visualization.simple_norm with the percent keyword:
per the astropy documentation, percent = p places the lower cut level at
the (100 - p) / 2 percentile and the upper cut level at the (100 + p) / 2
percentile of the data, so the interval keeps the central p percent. -/
def simpleNormModel (dat : List ℚ) (stretch : String) (percent : ℚ) : NormSpec :=
  ⟨stretch, percentileLinear dat ((100 - percent) / 2),
    percentileLinear dat ((100 + percent) / 2)⟩

/-- Pre-stretch value of the normalization at one pixel: clipped to the cut
interval and rescaled to the unit interval.  The sqrt stretch applied on
top is a strictly increasing bijection of the unit interval fixing 0 and
1, so clipping and saturation are fully visible at this level. -/
def normApply (ns : NormSpec) (v : ℚ) : ℚ :=
  if ns.vmax ≤ v then 1
  else if v ≤ ns.vmin then 0
  else (v - ns.vmin) / (ns.vmax - ns.vmin)

/-- Colormap list of lines 15-17 of src/out.py. -/
def cmaps : List String :=
  ["viridis", "plasma", "inferno", "magma", "cividis",
   "hot", "afmhot", "gray", "gist_gray",
   "viridis_r", "plasma_r", "inferno_r", "magma_r", "cividis_r"]

/-- Raster origin passed to imshow. -/
inductive Origin where
  | lower
  | upper
  deriving Repr, DecidableEq

/-- One imshow call: the data shown, the colormap, the normalization and
the origin, as in lines 97 and 110 of src/out.py. -/
structure Panel where
  cmap : String
  norm : NormSpec
  origin : Origin
  image : NDArray
  deriving Repr, DecidableEq

/-- First slice along the leading axis, the data2d = data2d[0] step of
line 81 of src/out.py: the leading dimension is dropped and the first
block of the row major data is kept. -/
def firstSlice (a : NDArray) : NDArray :=
  ⟨a.shape.tail, a.data.take a.shape.tail.prod⟩

/-- Gallery panels of lines 87-99 of src/out.py: a grid of 3 columns and
enough rows for all colormaps is allocated, and zip pairs the flattened
axes with the colormap list, truncating at the shorter of the two. -/
def galleryPanels (dat : NDArray) (norm : NormSpec) : List Panel :=
  let n := cmaps.length
  let cols := 3
  let grid := (n + cols - 1) / cols * cols
  (List.zip (List.replicate grid ()) cmaps).map (fun p => ⟨p.2, norm, Origin.lower, dat⟩)

/-- Console and screen effects of one loop iteration, in emission order. -/
inductive Event where
  | info (s : String)
  | noDataNotice
  | shapeInfo (shape : List Nat)
  | coloredTablePrint (headerCells : List String) (rowCells : List (List String))
  | exportedCSVNotice (nam : String)
  | sliceNotice (shape : List Nat)
  | galleryShown (panels : List Panel)
  | savedNotice (nam : String)
  | unusualNotice
  deriving Repr, DecidableEq

/-- Files written by one loop iteration. -/
inductive Artifact where
  | csv (nam : String) (content : List Char)
  | png (nam : String) (render : Panel)
  deriving Repr, DecidableEq

/-- Name of an artifact. -/
def artifactName : Artifact → String
  | Artifact.csv nam _ => nam
  | Artifact.png nam _ => nam

/-- Recognizer of CSV artifacts. -/
def isCsvArt : Artifact → Bool
  | Artifact.csv _ _ => true
  | Artifact.png _ _ => false

/-- Recognizer of PNG artifacts. -/
def isPngArt : Artifact → Bool
  | Artifact.csv _ _ => false
  | Artifact.png _ _ => true

/-- Rendered panels of the PNG artifacts in a list. -/
def pngPanels (arts : List Artifact) : List Panel :=
  arts.filterMap (fun a =>
    match a with
    | Artifact.png _ p => some p
    | Artifact.csv _ _ => none)

/-- Output of one iteration of the dispatch loop: emitted events, written
artifacts, and the increments of the two counters. -/
structure StepOut where
  events : List Event
  artifacts : List Artifact
  dTable : Nat
  dImage : Nat
  deriving Repr, DecidableEq

/-- One iteration of the loop of lines 47-119 of src/out.py, for the HDU
at index i, given the source file name and the counter values so far. -/
def stepHDU (fname : String) (i tc ic : Nat) (h : HDU) : StepOut :=
  let header := Event.info ("Processing HDU " ++ toString i ++ " - " ++ h.name)
  match h.data with
  | none => ⟨[header, Event.noDataNotice], [], 0, 0⟩
  | some (Payload.table t) =>
      let n := tc + 1
      let nam := csvFileName fname n
      ⟨[header, Event.shapeInfo [t.rows.length],
        Event.coloredTablePrint (coloredHeaders t.colnames) (coloredRows t.rows),
        Event.exportedCSVNotice nam],
       [Artifact.csv nam (serializeCSV t)], 1, 0⟩
  | some (Payload.array a) =>
      if 2 ≤ a.shape.length then
        let reduced := decide (2 < a.shape.length)
        let data2d := if reduced then firstSlice a else a
        let norm := simpleNormModel data2d.data "sqrt" (199 / 2)
        let nam := pngFileName fname i
        ⟨[header, Event.shapeInfo a.shape]
           ++ (if reduced then [Event.sliceNotice a.shape] else [])
           ++ [Event.galleryShown (galleryPanels data2d norm), Event.savedNotice nam],
         [Artifact.png nam ⟨"viridis", norm, Origin.lower, data2d⟩], 0, 1⟩
      else
        ⟨[header, Event.shapeInfo a.shape, Event.unusualNotice], [], 0, 0⟩

/-- Accumulated state of one file run: the two counters of lines 44-45 of
src/out.py, the artifacts written so far and the events emitted so far. -/
structure FileState where
  tableCount : Nat
  imageCount : Nat
  artifacts : List Artifact
  events : List Event
  deriving Repr, DecidableEq

/-- The dispatch loop from a given index and state. -/
def runLoopAux (fname : String) : Nat → List HDU → FileState → FileState
  | _, [], s => s
  | i, h :: rest, s =>
      let o := stepHDU fname i s.tableCount s.imageCount h
      runLoopAux fname (i + 1) rest
        ⟨s.tableCount + o.dTable, s.imageCount + o.dImage,
         s.artifacts ++ o.artifacts, s.events ++ o.events⟩

/-- The whole dispatch loop of one file, counters starting at zero. -/
def runLoop (fname : String) (hdus : List HDU) : FileState :=
  runLoopAux fname 0 hdus ⟨0, 0, [], []⟩

/-- Result of opening the container: the decoded HDU list, or the failure
message of the raised exception. -/
inductive OpenOutcome where
  | ok (hdus : List HDU)
  | fail (msg : String)
  deriving Repr, DecidableEq

/-- Observable outcome of the whole single file run: artifacts on disk,
console events, the printed error message if any, whether a stack trace
was dumped, whether the process terminated normally, and the summary
counts if the summary was printed. -/
structure RunOutcome where
  artifacts : List Artifact
  events : List Event
  errorMsg : Option String
  traceDumped : Bool
  exitNormal : Bool
  summary : Option (Nat × Nat)
  deriving Repr, DecidableEq

/-- Whole single file run of src/out.py lines 38-128.  The failure oracle
failAt models an exception raised by a library call while the loop is
processing the HDU at the given index (CSV write, rendering or PNG save),
carrying its message; earlier iterations have already written their
artifacts.  Every failure is caught by the except clause of line 125: the
message is printed, a stack trace is dumped, and the process ends
normally; on a clean run the summary of lines 121-123 is printed. -/
def runSingleFile (fname : String) (o : OpenOutcome) (failAt : Option (Nat × String)) :
    RunOutcome :=
  match o with
  | OpenOutcome.fail msg => ⟨[], [], some ("Error: " ++ msg), true, true, none⟩
  | OpenOutcome.ok hdus =>
      match failAt with
      | some (k, m) =>
          if k < hdus.length then
            let s := runLoop fname (hdus.take k)
            ⟨s.artifacts, s.events, some ("Error: " ++ m), true, true, none⟩
          else
            let s := runLoop fname hdus
            ⟨s.artifacts, s.events, none, false, true, some (s.tableCount, s.imageCount)⟩
      | none =>
          let s := runLoop fname hdus
          ⟨s.artifacts, s.events, none, false, true, some (s.tableCount, s.imageCount)⟩

/-- Input path constant of line 36 of src/out.py. -/
def fits_filename : String :=
  "MAST_2025-12-18T13_08_21.848Z/HST/o5i301020_asn.fits"

/-
Helper lemmas shared by the claim theorems.
-/

/-- Table increment of one loop iteration, by branch. -/
theorem stepHDU_dTable (fname : String) (i tc ic : Nat) (h : HDU) :
    (stepHDU fname i tc ic h).dTable = if isTabularB h then 1 else 0 := by
  obtain ⟨nm, d⟩ := h
  match d with
  | none => rfl
  | some (Payload.table t) => rfl
  | some (Payload.array a) =>
      by_cases hl : 2 ≤ a.shape.length <;> simp [stepHDU, isTabularB, hl]

/-- Image increment of one loop iteration, by branch. -/
theorem stepHDU_dImage (fname : String) (i tc ic : Nat) (h : HDU) :
    (stepHDU fname i tc ic h).dImage = if isImageLikeB h then 1 else 0 := by
  obtain ⟨nm, d⟩ := h
  match d with
  | none => rfl
  | some (Payload.table t) => rfl
  | some (Payload.array a) =>
      by_cases hl : 2 ≤ a.shape.length <;> simp [stepHDU, isImageLikeB, hl]

/-- CSV artifact count of one loop iteration, by branch. -/
theorem stepHDU_csvCount (fname : String) (i tc ic : Nat) (h : HDU) :
    ((stepHDU fname i tc ic h).artifacts.countP isCsvArt) =
      if isTabularB h then 1 else 0 := by
  obtain ⟨nm, d⟩ := h
  match d with
  | none => rfl
  | some (Payload.table t) => rfl
  | some (Payload.array a) =>
      by_cases hl : 2 ≤ a.shape.length <;> simp [stepHDU, isTabularB, hl, isCsvArt]

/-- PNG artifact count of one loop iteration, by branch. -/
theorem stepHDU_pngCount (fname : String) (i tc ic : Nat) (h : HDU) :
    ((stepHDU fname i tc ic h).artifacts.countP isPngArt) =
      if isImageLikeB h then 1 else 0 := by
  obtain ⟨nm, d⟩ := h
  match d with
  | none => rfl
  | some (Payload.table t) => rfl
  | some (Payload.array a) =>
      by_cases hl : 2 ≤ a.shape.length <;> simp [stepHDU, isImageLikeB, hl, isPngArt]

/-- No artifacts are written for an HDU without data. -/
theorem stepHDU_noData_artifacts (fname : String) (i tc ic : Nat) (h : HDU)
    (hd : h.data = none) : (stepHDU fname i tc ic h).artifacts = [] := by
  obtain ⟨nm, d⟩ := h
  cases hd
  rfl

/-- Final table count of the loop: the initial count plus one per tabular
HDU of the remaining list. -/
theorem runLoopAux_tableCount (fname : String) (hdus : List HDU) :
    ∀ (i : Nat) (s : FileState),
      (runLoopAux fname i hdus s).tableCount = s.tableCount + hdus.countP isTabularB := by
  induction hdus with
  | nil => intro i s; simp [runLoopAux]
  | cons h rest ih =>
      intro i s
      simp only [runLoopAux, ih, List.countP_cons, stepHDU_dTable]
      by_cases ht : isTabularB h <;> simp [ht] <;> omega

/-- Final image count of the loop: the initial count plus one per
image-like HDU of the remaining list. -/
theorem runLoopAux_imageCount (fname : String) (hdus : List HDU) :
    ∀ (i : Nat) (s : FileState),
      (runLoopAux fname i hdus s).imageCount = s.imageCount + hdus.countP isImageLikeB := by
  induction hdus with
  | nil => intro i s; simp [runLoopAux]
  | cons h rest ih =>
      intro i s
      simp only [runLoopAux, ih, List.countP_cons, stepHDU_dImage]
      by_cases ht : isImageLikeB h <;> simp [ht] <;> omega

/-- CSV artifacts accumulated by the loop: one per tabular HDU. -/
theorem runLoopAux_csvCount (fname : String) (hdus : List HDU) :
    ∀ (i : Nat) (s : FileState),
      ((runLoopAux fname i hdus s).artifacts.countP isCsvArt) =
        s.artifacts.countP isCsvArt + hdus.countP isTabularB := by
  induction hdus with
  | nil => intro i s; simp [runLoopAux]
  | cons h rest ih =>
      intro i s
      simp only [runLoopAux, ih, List.countP_cons, List.countP_append, stepHDU_csvCount]
      by_cases ht : isTabularB h <;> simp [ht] <;> omega

/-- PNG artifacts accumulated by the loop: one per image-like HDU. -/
theorem runLoopAux_pngCount (fname : String) (hdus : List HDU) :
    ∀ (i : Nat) (s : FileState),
      ((runLoopAux fname i hdus s).artifacts.countP isPngArt) =
        s.artifacts.countP isPngArt + hdus.countP isImageLikeB := by
  induction hdus with
  | nil => intro i s; simp [runLoopAux]
  | cons h rest ih =>
      intro i s
      simp only [runLoopAux, ih, List.countP_cons, List.countP_append, stepHDU_pngCount]
      by_cases ht : isImageLikeB h <;> simp [ht] <;> omega

/-- A loop over HDUs that all lack data writes nothing. -/
theorem runLoopAux_allNone_artifacts (fname : String) (hdus : List HDU) :
    ∀ (i : Nat) (s : FileState), (∀ h ∈ hdus, h.data = none) →
      (runLoopAux fname i hdus s).artifacts = s.artifacts := by
  induction hdus with
  | nil => intro i s _; simp [runLoopAux]
  | cons h rest ih =>
      intro i s hall
      have hh : h.data = none := hall h (List.mem_cons_self h rest)
      simp only [runLoopAux, ih _ _ (fun x hx => hall x (List.mem_cons_of_mem h hx))]
      rw [stepHDU_noData_artifacts fname i s.tableCount s.imageCount h hh]
      simp

/-- Splitting never returns an empty list of pieces. -/
theorem splitChar_ne_nil (sep : Char) (l : List Char) : splitChar sep l ≠ [] := by
  induction l with
  | nil => simp [splitChar]
  | cons c rest ih =>
      by_cases hc : c = sep
      · simp [splitChar, hc]
      · simp only [splitChar, hc, if_false]
        cases hp : splitChar sep rest with
        | nil => simp
        | cons p ps => simp

/-- Splitting a list free of the separator returns that list alone. -/
theorem splitChar_not_mem (sep : Char) (l : List Char) (h : sep ∉ l) :
    splitChar sep l = [l] := by
  induction l with
  | nil => rfl
  | cons c rest ih =>
      have hc : c ≠ sep := fun hc => h (hc ▸ List.mem_cons_self c rest)
      have hr : sep ∉ rest := fun hr => h (List.mem_cons_of_mem c hr)
      simp [splitChar, hc, ih hr]

/-- Splitting after a separator-free piece peels off exactly that piece. -/
theorem splitChar_append (sep : Char) (piece rest : List Char) (h : sep ∉ piece) :
    splitChar sep (piece ++ sep :: rest) = piece :: splitChar sep rest := by
  induction piece with
  | nil => simp [splitChar]
  | cons c p ih =>
      have hc : c ≠ sep := fun hc => h (hc ▸ List.mem_cons_self c p)
      have hp : sep ∉ p := fun hp => h (List.mem_cons_of_mem c hp)
      simp only [List.cons_append, splitChar, hc, if_false, List.append_eq, ih hp]

/-- Unfolding of intercalate over a single piece. -/
theorem intercalate_one {α : Type} (s x : List α) : List.intercalate s [x] = x := by
  simp [List.intercalate, List.intersperse]

/-- Unfolding of intercalate over at least two pieces. -/
theorem intercalate_cons_two {α : Type} (s x y : List α) (zs : List (List α)) :
    List.intercalate s (x :: y :: zs) = x ++ s ++ List.intercalate s (y :: zs) := by
  simp [List.intercalate, List.intersperse]

/-- Splitting undoes joining for separator-free pieces. -/
theorem splitChar_intercalate (sep : Char) (pieces : List (List Char))
    (hne : pieces ≠ []) (hall : ∀ p ∈ pieces, sep ∉ p) :
    splitChar sep (List.intercalate [sep] pieces) = pieces := by
  induction pieces with
  | nil => exact absurd rfl hne
  | cons p ps ih =>
      cases ps with
      | nil =>
          simp only [intercalate_one]
          exact splitChar_not_mem sep p (hall p (List.mem_cons_self p []))
      | cons q qs =>
          rw [intercalate_cons_two]
          have hp : sep ∉ p := hall p (List.mem_cons_self p (q :: qs))
          have hrest : ∀ r ∈ q :: qs, sep ∉ r :=
            fun r hr => hall r (List.mem_cons_of_mem p hr)
          rw [List.append_assoc, List.singleton_append, splitChar_append sep p _ hp,
            ih (by simp) hrest]

/-- Characters of a joined list come from the separator or the pieces. -/
theorem mem_intercalate (c : Char) (sep : Char) (pieces : List (List Char)) :
    c ∈ List.intercalate [sep] pieces → c = sep ∨ ∃ p ∈ pieces, c ∈ p := by
  induction pieces with
  | nil => intro hc; simp [List.intercalate] at hc
  | cons p ps ih =>
      cases ps with
      | nil =>
          intro hc
          simp only [intercalate_one] at hc
          exact Or.inr ⟨p, List.mem_cons_self p [], hc⟩
      | cons q qs =>
          rw [intercalate_cons_two]
          intro hc
          rcases List.mem_append.mp hc with hc1 | hc2
          · rcases List.mem_append.mp hc1 with hc3 | hc4
            · exact Or.inr ⟨p, List.mem_cons_self p (q :: qs), hc3⟩
            · simp at hc4
              exact Or.inl hc4
          · rcases ih hc2 with h1 | ⟨r, hr, hcr⟩
            · exact Or.inl h1
            · exact Or.inr ⟨r, List.mem_cons_of_mem p hr, hcr⟩

/-- Rebuilding a string from its character list. -/
theorem string_mk_toList (s : String) : String.mk s.toList = s := by
  cases s
  rfl

/-- The separator characters of the CSV text: a record free of commas and
newlines splits back into its original cells. -/
theorem serializeRow_roundtrip (cells : List String) (hne : cells ≠ [])
    (hall : ∀ s ∈ cells, (',' : Char) ∉ s.toList ∧ ('\n' : Char) ∉ s.toList) :
    (splitChar ',' (serializeRow cells)).map String.mk = cells := by
  unfold serializeRow
  rw [splitChar_intercalate ',' (cells.map String.toList)
      (by simpa using hne)
      (by intro p hp
          rcases List.mem_map.mp hp with ⟨s, hs, rfl⟩
          exact (hall s hs).1)]
  rw [List.map_map]
  have : (String.mk ∘ String.toList) = id := by
    funext s
    exact string_mk_toList s
  rw [this, List.map_id]

/-- A serialized record contains no newline when its cells contain none. -/
theorem serializeRow_no_newline (cells : List String)
    (hall : ∀ s ∈ cells, (',' : Char) ∉ s.toList ∧ ('\n' : Char) ∉ s.toList) :
    ('\n' : Char) ∉ serializeRow cells := by
  intro hmem
  rcases mem_intercalate '\n' ',' (cells.map String.toList) hmem with h1 | ⟨p, hp, hcp⟩
  · exact absurd h1 (by decide)
  · rcases List.mem_map.mp hp with ⟨s, hs, rfl⟩
    exact (hall s hs).2 hcp

/-
Claim theorems.
-/

/-- Claim C1: for every extension of a decoded container the classification
is total and mutually exclusive: exactly one of the four branch predicates
holds (no data, tabular, 2-or-more-dimensional numeric, anything else), the
classifier agrees with the branch predicates, the decision ignores the
extension name, and the loop body routes to the table or image handler
exactly when the classifier says so. -/
theorem classification_total_exclusive (h : HDU) :
    (branchFlags h).count true = 1
    ∧ (classify h = Classification.noData ↔ hasNoDataB h = true)
    ∧ (classify h = Classification.tableBranch ↔ isTabularB h = true)
    ∧ (classify h = Classification.imageBranch ↔ isImageLikeB h = true)
    ∧ (classify h = Classification.unusual ↔ isUnusualB h = true)
    ∧ (∀ n : String, classify ⟨n, h.data⟩ = classify h)
    ∧ (∀ (fname : String) (i tc ic : Nat),
        ((stepHDU fname i tc ic h).dTable = 1 ↔ classify h = Classification.tableBranch)
        ∧ ((stepHDU fname i tc ic h).dImage = 1 ↔ classify h = Classification.imageBranch)) := by
  obtain ⟨nm, d⟩ := h
  match d with
  | none =>
      refine ⟨by simp [branchFlags, hasNoDataB, isTabularB, isImageLikeB, isUnusualB,
          List.count_cons],
        by simp [classify, hasNoDataB], by simp [classify, isTabularB],
        by simp [classify, isImageLikeB], by simp [classify, isUnusualB],
        fun n => rfl, fun fname i tc ic => ⟨by simp [stepHDU, classify], by simp [stepHDU, classify]⟩⟩
  | some (Payload.table t) =>
      refine ⟨by simp [branchFlags, hasNoDataB, isTabularB, isImageLikeB, isUnusualB,
          List.count_cons],
        by simp [classify, hasNoDataB], by simp [classify, isTabularB],
        by simp [classify, isImageLikeB], by simp [classify, isUnusualB],
        fun n => rfl, fun fname i tc ic => ⟨by simp [stepHDU, classify], by simp [stepHDU, classify]⟩⟩
  | some (Payload.array a) =>
      by_cases hl : 2 ≤ a.shape.length
      · refine ⟨?_, by simp [classify, hasNoDataB, hl], by simp [classify, isTabularB, hl],
          by simp [classify, isImageLikeB, hl], by simp [classify, isUnusualB, hl, Nat.not_lt.mpr hl],
          fun n => rfl, fun fname i tc ic => ⟨by simp [stepHDU, classify, hl], by simp [stepHDU, classify, hl]⟩⟩
        simp [branchFlags, hasNoDataB, isTabularB, isImageLikeB, isUnusualB, hl,
          Nat.not_lt.mpr hl, List.count_cons]
      · have hl2 : a.shape.length < 2 := Nat.not_le.mp hl
        refine ⟨?_, by simp [classify, hasNoDataB, hl], by simp [classify, isTabularB, hl],
          by simp [classify, isImageLikeB, hl], by simp [classify, isUnusualB, hl, hl2],
          fun n => rfl, fun fname i tc ic => ⟨by simp [stepHDU, classify, hl], by simp [stepHDU, classify, hl]⟩⟩
        simp [branchFlags, hasNoDataB, isTabularB, isImageLikeB, isUnusualB, hl, hl2,
          List.count_cons]

/-- Claim C6: an extension whose payload is absent, or is neither tabular
nor 2-or-more-dimensional, produces no CSV and no PNG artifact, leaves both
counters unchanged (its increments are zero, and the loop adds the
increments), and only emits the corresponding skip notice. -/
theorem skip_branch_no_artifacts (fname : String) (i tc ic : Nat) (h : HDU)
    (hskip : hasNoDataB h = true ∨ isUnusualB h = true) :
    (stepHDU fname i tc ic h).artifacts = []
    ∧ (stepHDU fname i tc ic h).dTable = 0
    ∧ (stepHDU fname i tc ic h).dImage = 0
    ∧ (hasNoDataB h = true → Event.noDataNotice ∈ (stepHDU fname i tc ic h).events)
    ∧ (isUnusualB h = true → Event.unusualNotice ∈ (stepHDU fname i tc ic h).events) := by
  obtain ⟨nm, d⟩ := h
  match d with
  | none =>
      exact ⟨rfl, rfl, rfl, fun _ => by simp [stepHDU], fun hu => by simp [isUnusualB] at hu⟩
  | some (Payload.table t) =>
      rcases hskip with h1 | h2
      · simp [hasNoDataB] at h1
      · simp [isUnusualB] at h2
  | some (Payload.array a) =>
      have hlt : a.shape.length < 2 := by
        rcases hskip with h1 | h2
        · simp [hasNoDataB] at h1
        · simpa [isUnusualB] using h2
      have hl : ¬ 2 ≤ a.shape.length := Nat.not_le.mpr hlt
      refine ⟨by simp [stepHDU, hl], by simp [stepHDU, hl], by simp [stepHDU, hl],
        fun h1 => by simp [hasNoDataB] at h1, fun _ => by simp [stepHDU, hl]⟩

/-- Witness for claim C6 at a concrete primary HDU without data and at a
concrete one-dimensional array HDU. -/
theorem skip_branch_no_artifacts_witness :
    (stepHDU "obs.fits" 0 0 0 ⟨"PRIMARY", none⟩).artifacts = []
    ∧ (stepHDU "obs.fits" 0 0 0 ⟨"PRIMARY", none⟩).dTable = 0
    ∧ (stepHDU "obs.fits" 3 1 1 ⟨"VEC", some (Payload.array ⟨[7], [0, 1, 2, 3, 4, 5, 6]⟩)⟩).artifacts = []
    ∧ (stepHDU "obs.fits" 3 1 1 ⟨"VEC", some (Payload.array ⟨[7], [0, 1, 2, 3, 4, 5, 6]⟩)⟩).dImage = 0 := by
  have h1 := skip_branch_no_artifacts "obs.fits" 0 0 0 ⟨"PRIMARY", none⟩ (Or.inl (by decide))
  have h2 := skip_branch_no_artifacts "obs.fits" 3 1 1
    ⟨"VEC", some (Payload.array ⟨[7], [0, 1, 2, 3, 4, 5, 6]⟩)⟩ (Or.inr (by decide))
  exact ⟨h1.1, h1.2.1, h2.1, h2.2.2.1⟩

/-- Claim C2: for a tabular extension the loop writes exactly one CSV
artifact whose content is serialized from the decoded table alone; parsing
that content back reproduces the column names in order and every cell
value exactly, with the original row count; the content contains no ANSI
escape character when the cells contain none, while the console rendering
is a separate colored event, so the alternating color scheme has no effect
on the CSV. -/
theorem csv_roundtrip (fname : String) (i tc ic : Nat) (nm : String) (t : TableData)
    (hne : t.colnames ≠ [])
    (hcol : ∀ s ∈ t.colnames, (',' : Char) ∉ s.toList ∧ ('\n' : Char) ∉ s.toList)
    (hrows : ∀ r ∈ t.rows, r ≠ [])
    (hcell : ∀ r ∈ t.rows, ∀ s ∈ r, (',' : Char) ∉ s.toList ∧ ('\n' : Char) ∉ s.toList) :
    (stepHDU fname i tc ic ⟨nm, some (Payload.table t)⟩).artifacts
      = [Artifact.csv (csvFileName fname (tc + 1)) (serializeCSV t)]
    ∧ parseCSV (serializeCSV t) = t
    ∧ (parseCSV (serializeCSV t)).rows.length = t.rows.length
    ∧ ((∀ s ∈ t.colnames, ('\x1b' : Char) ∉ s.toList) →
        (∀ r ∈ t.rows, ∀ s ∈ r, ('\x1b' : Char) ∉ s.toList) →
        ('\x1b' : Char) ∉ serializeCSV t)
    ∧ Event.coloredTablePrint (coloredHeaders t.colnames) (coloredRows t.rows)
        ∈ (stepHDU fname i tc ic ⟨nm, some (Payload.table t)⟩).events := by
  have hparse : parseCSV (serializeCSV t) = t := by
    unfold parseCSV serializeCSV
    have hpieces : ∀ p ∈ serializeRow t.colnames :: t.rows.map serializeRow,
        ('\n' : Char) ∉ p := by
      intro p hp
      rcases List.mem_cons.mp hp with rfl | hp2
      · exact serializeRow_no_newline t.colnames hcol
      · rcases List.mem_map.mp hp2 with ⟨r, hr, rfl⟩
        exact serializeRow_no_newline r (hcell r hr)
    rw [splitChar_intercalate '\n' _ (by simp) hpieces]
    simp only [List.map_cons, List.map_map]
    rw [serializeRow_roundtrip t.colnames hne hcol]
    have hrec : t.rows.map ((fun line => (splitChar ',' line).map String.mk) ∘ serializeRow)
        = t.rows := by
      have hcongr : ∀ r ∈ t.rows,
          ((fun line => (splitChar ',' line).map String.mk) ∘ serializeRow) r = id r :=
        fun r hr => serializeRow_roundtrip r (hrows r hr) (hcell r hr)
      rw [List.map_congr_left hcongr, List.map_id]
    rw [hrec]
  refine ⟨rfl, hparse, by rw [hparse], ?_, by simp [stepHDU]⟩
  intro hesc1 hesc2 hmem
  rcases mem_intercalate '\x1b' '\n' _ hmem with h1 | ⟨p, hp, hcp⟩
  · exact absurd h1 (by decide)
  · rcases List.mem_cons.mp hp with rfl | hp2
    · rcases mem_intercalate '\x1b' ',' _ hcp with h2 | ⟨q, hq, hcq⟩
      · exact absurd h2 (by decide)
      · rcases List.mem_map.mp hq with ⟨s, hs, rfl⟩
        exact hesc1 s hs hcq
    · rcases List.mem_map.mp hp2 with ⟨r, hr, rfl⟩
      rcases mem_intercalate '\x1b' ',' _ hcp with h2 | ⟨q, hq, hcq⟩
      · exact absurd h2 (by decide)
      · rcases List.mem_map.mp hq with ⟨s, hs, rfl⟩
        exact hesc2 r hr s hs hcq

/-- Witness for claim C2 at a concrete two-column, two-row table. -/
theorem csv_roundtrip_witness :
    (stepHDU "obs.fits" 1 0 0
        ⟨"CAT", some (Payload.table ⟨["ra", "dec"], [["10.5", "-3"], ["11", "4.25"]]⟩)⟩).artifacts
      = [Artifact.csv (csvFileName "obs.fits" 1)
          (serializeCSV ⟨["ra", "dec"], [["10.5", "-3"], ["11", "4.25"]]⟩)]
    ∧ parseCSV (serializeCSV ⟨["ra", "dec"], [["10.5", "-3"], ["11", "4.25"]]⟩)
        = ⟨["ra", "dec"], [["10.5", "-3"], ["11", "4.25"]]⟩ := by
  have h := csv_roundtrip "obs.fits" 1 0 0 "CAT" ⟨["ra", "dec"], [["10.5", "-3"], ["11", "4.25"]]⟩
    (by decide) (by decide) (by decide) (by decide)
  exact ⟨h.1, h.2.1⟩

/-- Claim C8: after the loop, the summary reports exactly the number of
tabular extensions handled and the number of image extensions handled, the
number of CSV artifacts equals the table count, the number of PNG
artifacts equals the image count, and a container with no extension
carrying data yields zero counts and no artifacts. -/
theorem summary_counts (fname : String) (hdus : List HDU) :
    (runLoop fname hdus).tableCount = hdus.countP isTabularB
    ∧ (runLoop fname hdus).imageCount = hdus.countP isImageLikeB
    ∧ ((runLoop fname hdus).artifacts.countP isCsvArt) = (runLoop fname hdus).tableCount
    ∧ ((runLoop fname hdus).artifacts.countP isPngArt) = (runLoop fname hdus).imageCount
    ∧ (runSingleFile fname (OpenOutcome.ok hdus) none).summary
        = some ((runLoop fname hdus).tableCount, (runLoop fname hdus).imageCount)
    ∧ ((∀ h ∈ hdus, h.data = none) →
        (runLoop fname hdus).tableCount = 0 ∧ (runLoop fname hdus).imageCount = 0
        ∧ (runLoop fname hdus).artifacts = []) := by
  have ht : (runLoop fname hdus).tableCount = hdus.countP isTabularB := by
    unfold runLoop
    rw [runLoopAux_tableCount]
    simp
  have hi : (runLoop fname hdus).imageCount = hdus.countP isImageLikeB := by
    unfold runLoop
    rw [runLoopAux_imageCount]
    simp
  have hcsv : ((runLoop fname hdus).artifacts.countP isCsvArt) = hdus.countP isTabularB := by
    unfold runLoop
    rw [runLoopAux_csvCount]
    simp
  have hpng : ((runLoop fname hdus).artifacts.countP isPngArt) = hdus.countP isImageLikeB := by
    unfold runLoop
    rw [runLoopAux_pngCount]
    simp
  refine ⟨ht, hi, by rw [hcsv, ht], by rw [hpng, hi], rfl, ?_⟩
  intro hall
  have hzt : hdus.countP isTabularB = 0 := by
    rw [List.countP_eq_zero]
    intro h hh
    simp [isTabularB, hall h hh]
  have hzi : hdus.countP isImageLikeB = 0 := by
    rw [List.countP_eq_zero]
    intro h hh
    simp [isImageLikeB, hall h hh]
  refine ⟨by rw [ht, hzt], by rw [hi, hzi], ?_⟩
  unfold runLoop
  rw [runLoopAux_allNone_artifacts fname hdus 0 _ hall]

/-- Witness for claim C8 at a container whose only extension carries no
data: the summary reports zero tables and zero images and no artifact is
written. -/
theorem summary_counts_witness :
    (runSingleFile "obs.fits" (OpenOutcome.ok [⟨"PRIMARY", none⟩]) none).summary
      = some ((runLoop "obs.fits" [⟨"PRIMARY", none⟩]).tableCount,
              (runLoop "obs.fits" [⟨"PRIMARY", none⟩]).imageCount)
    ∧ (runLoop "obs.fits" [⟨"PRIMARY", none⟩]).tableCount = 0
    ∧ (runLoop "obs.fits" [⟨"PRIMARY", none⟩]).imageCount = 0
    ∧ (runLoop "obs.fits" [⟨"PRIMARY", none⟩]).artifacts = [] := by
  have h := summary_counts "obs.fits" [⟨"PRIMARY", none⟩]
  have hz := h.2.2.2.2.2 (by decide)
  exact ⟨h.2.2.2.2.1, hz.1, hz.2.1, hz.2.2⟩

/-- Claim C7: in single file mode, a failure of the container open, or an
exception raised while processing any extension, is caught at the file
boundary: the error message is printed, a stack trace is dumped, the
process ends (normally, with no summary), the artifacts written by the
iterations that completed before the failure are exactly the single pass
over the preceding extensions (so they remain on disk, nothing is rolled
back, and nothing is retried). -/
theorem single_file_error_boundary (fname msg m : String) (hdus : List HDU) (k : Nat)
    (hk : k < hdus.length) :
    ((runSingleFile fname (OpenOutcome.fail msg) none).errorMsg = some ("Error: " ++ msg)
      ∧ (runSingleFile fname (OpenOutcome.fail msg) none).traceDumped = true
      ∧ (runSingleFile fname (OpenOutcome.fail msg) none).exitNormal = true
      ∧ (runSingleFile fname (OpenOutcome.fail msg) none).artifacts = []
      ∧ (runSingleFile fname (OpenOutcome.fail msg) none).summary = none)
    ∧ ((runSingleFile fname (OpenOutcome.ok hdus) (some (k, m))).errorMsg
          = some ("Error: " ++ m)
      ∧ (runSingleFile fname (OpenOutcome.ok hdus) (some (k, m))).traceDumped = true
      ∧ (runSingleFile fname (OpenOutcome.ok hdus) (some (k, m))).exitNormal = true
      ∧ (runSingleFile fname (OpenOutcome.ok hdus) (some (k, m))).artifacts
          = (runLoop fname (hdus.take k)).artifacts
      ∧ (runSingleFile fname (OpenOutcome.ok hdus) (some (k, m))).summary = none) := by
  refine ⟨⟨rfl, rfl, rfl, rfl, rfl⟩, ?_⟩
  simp [runSingleFile, hk]

/-- Witness for claim C7: a failed open, and an exception at the second
extension of a two extension container, leave the artifact of the first
extension in place. -/
theorem single_file_error_boundary_witness :
    (runSingleFile "obs.fits" (OpenOutcome.fail "corrupt header") none).errorMsg
      = some ("Error: " ++ "corrupt header")
    ∧ (runSingleFile "obs.fits" (OpenOutcome.fail "corrupt header") none).exitNormal = true
    ∧ (runSingleFile "obs.fits"
        (OpenOutcome.ok [⟨"CAT", some (Payload.table ⟨["x"], [["1"]]⟩)⟩, ⟨"IMG", none⟩])
        (some (1, "disk full"))).artifacts
      = (runLoop "obs.fits" ([⟨"CAT", some (Payload.table ⟨["x"], [["1"]]⟩)⟩,
          ⟨"IMG", none⟩].take 1)).artifacts
    ∧ (runSingleFile "obs.fits"
        (OpenOutcome.ok [⟨"CAT", some (Payload.table ⟨["x"], [["1"]]⟩)⟩, ⟨"IMG", none⟩])
        (some (1, "disk full"))).exitNormal = true := by
  have h := single_file_error_boundary "obs.fits" "corrupt header" "disk full"
    [⟨"CAT", some (Payload.table ⟨["x"], [["1"]]⟩)⟩, ⟨"IMG", none⟩] 1 (by decide)
  exact ⟨h.1.1, h.1.2.2.1, h.2.2.2.2.1, h.2.2.2.1⟩

/-- Claim C9: the run never propagates an exception to the caller: for
every open outcome (including a container that cannot be decoded at all)
and every modelled failure point inside the pipeline, the single file run
terminates normally. -/
theorem no_uncaught_exception (fname : String) (o : OpenOutcome)
    (failAt : Option (Nat × String)) :
    (runSingleFile fname o failAt).exitNormal = true := by
  match o with
  | OpenOutcome.fail msg => rfl
  | OpenOutcome.ok hdus =>
      match failAt with
      | none => rfl
      | some (k, m) =>
          by_cases hk : k < hdus.length <;> simp [runSingleFile, hk]

/-- Colormaps of the gallery, in order: the zip of the 15 allocated axes
with the 14 colormaps truncates to exactly the colormap list. -/
theorem galleryPanels_cmaps (dat : NDArray) (norm : NormSpec) :
    (galleryPanels dat norm).map Panel.cmap = cmaps := rfl

/-- Every gallery panel shares the one normalization, the lower left
origin and the selected data. -/
theorem galleryPanels_fields (dat : NDArray) (norm : NormSpec) :
    ∀ p ∈ galleryPanels dat norm,
      p.norm = norm ∧ p.origin = Origin.lower ∧ p.image = dat := by
  intro p hp
  simp only [galleryPanels] at hp
  rcases List.mem_map.mp hp with ⟨q, _, rfl⟩
  exact ⟨rfl, rfl, rfl⟩

/-- Claim C10: for every image extension exactly one PNG is saved, it uses
the viridis colormap, the same normalization object and the same lower
left origin as the on-screen gallery, and the gallery always shows the
same fixed list of 14 colormaps. -/
theorem image_render_policy (fname nm : String) (i tc ic : Nat) (a : NDArray)
    (hdim : 2 ≤ a.shape.length) :
    (stepHDU fname i tc ic ⟨nm, some (Payload.array a)⟩).artifacts
      = [Artifact.png (pngFileName fname i)
          ⟨"viridis",
           simpleNormModel (if 2 < a.shape.length then firstSlice a else a).data "sqrt" (199 / 2),
           Origin.lower,
           if 2 < a.shape.length then firstSlice a else a⟩]
    ∧ ((stepHDU fname i tc ic ⟨nm, some (Payload.array a)⟩).artifacts.countP isPngArt) = 1
    ∧ Event.galleryShown (galleryPanels (if 2 < a.shape.length then firstSlice a else a)
          (simpleNormModel (if 2 < a.shape.length then firstSlice a else a).data "sqrt" (199 / 2)))
        ∈ (stepHDU fname i tc ic ⟨nm, some (Payload.array a)⟩).events
    ∧ (galleryPanels (if 2 < a.shape.length then firstSlice a else a)
          (simpleNormModel (if 2 < a.shape.length then firstSlice a else a).data "sqrt" (199 / 2))).map
        Panel.cmap = cmaps
    ∧ cmaps.length = 14
    ∧ (∀ p ∈ galleryPanels (if 2 < a.shape.length then firstSlice a else a)
          (simpleNormModel (if 2 < a.shape.length then firstSlice a else a).data "sqrt" (199 / 2)),
        p.norm = simpleNormModel (if 2 < a.shape.length then firstSlice a else a).data "sqrt" (199 / 2)
        ∧ p.origin = Origin.lower) := by
  by_cases h2 : 2 < a.shape.length
  · refine ⟨by simp [stepHDU, hdim, h2], by simp [stepHDU, hdim, h2, isPngArt],
      by simp [stepHDU, hdim, h2], galleryPanels_cmaps _ _, rfl, ?_⟩
    intro p hp
    exact ⟨(galleryPanels_fields _ _ p hp).1, (galleryPanels_fields _ _ p hp).2.1⟩
  · refine ⟨by simp [stepHDU, hdim, h2], by simp [stepHDU, hdim, h2, isPngArt],
      by simp [stepHDU, hdim, h2], galleryPanels_cmaps _ _, rfl, ?_⟩
    intro p hp
    exact ⟨(galleryPanels_fields _ _ p hp).1, (galleryPanels_fields _ _ p hp).2.1⟩

/-- Witness for claim C10 at a concrete 2 by 2 image extension. -/
theorem image_render_policy_witness :
    (stepHDU "obs.fits" 2 0 0 ⟨"SCI", some (Payload.array ⟨[2, 2], [1, 2, 3, 4]⟩)⟩).artifacts
      = [Artifact.png (pngFileName "obs.fits" 2)
          ⟨"viridis",
           simpleNormModel (if 2 < ([2, 2] : List Nat).length then
               firstSlice ⟨[2, 2], [1, 2, 3, 4]⟩ else ⟨[2, 2], [1, 2, 3, 4]⟩).data "sqrt" (199 / 2),
           Origin.lower,
           if 2 < ([2, 2] : List Nat).length then
             firstSlice ⟨[2, 2], [1, 2, 3, 4]⟩ else ⟨[2, 2], [1, 2, 3, 4]⟩⟩]
    ∧ ((stepHDU "obs.fits" 2 0 0
          ⟨"SCI", some (Payload.array ⟨[2, 2], [1, 2, 3, 4]⟩)⟩).artifacts.countP isPngArt) = 1
    ∧ cmaps.length = 14 := by
  have h := image_render_policy "obs.fits" "SCI" 2 0 0 ⟨[2, 2], [1, 2, 3, 4]⟩ (by decide)
  exact ⟨h.1, h.2.1, h.2.2.2.2.1⟩

/-- Counterexample to claim C5 as stated: for a 4 dimensional array the
loop takes one slice only, so the data used for normalization, display and
the saved PNG is 3 dimensional, not the first 2-D slice.  At shape
2x2x2x2 the saved PNG renders data of shape 2x2x2. -/
theorem first_slice_counterexample :
    (pngPanels (stepHDU "cube.fits" 1 0 0
        ⟨"HYP", some (Payload.array ⟨[2, 2, 2, 2], List.replicate 16 0⟩)⟩).artifacts).map
      (fun p => p.image.shape) = [[2, 2, 2]]
    ∧ ([2, 2, 2] : List Nat).length ≠ 2 := by
  constructor
  · rfl
  · decide

/-- Claim C5 amended: for an image extension with more than 2 dimensions
the first slice along the leading axis (one dimension dropped, hence 2-D
exactly when the input is 3-D) is used for the normalization, the gallery
and the saved PNG, and a reduction notice is printed; an exactly 2-D
array is used unchanged and no reduction notice appears. -/
theorem first_slice_selection (fname nm : String) (i tc ic : Nat) (a : NDArray)
    (hdim : 2 ≤ a.shape.length) :
    (2 < a.shape.length →
        (stepHDU fname i tc ic ⟨nm, some (Payload.array a)⟩).artifacts
          = [Artifact.png (pngFileName fname i)
              ⟨"viridis", simpleNormModel (firstSlice a).data "sqrt" (199 / 2), Origin.lower,
               firstSlice a⟩]
        ∧ Event.sliceNotice a.shape ∈ (stepHDU fname i tc ic ⟨nm, some (Payload.array a)⟩).events
        ∧ Event.galleryShown (galleryPanels (firstSlice a)
              (simpleNormModel (firstSlice a).data "sqrt" (199 / 2)))
            ∈ (stepHDU fname i tc ic ⟨nm, some (Payload.array a)⟩).events
        ∧ (firstSlice a).shape = a.shape.tail)
    ∧ (a.shape.length = 2 →
        (stepHDU fname i tc ic ⟨nm, some (Payload.array a)⟩).artifacts
          = [Artifact.png (pngFileName fname i)
              ⟨"viridis", simpleNormModel a.data "sqrt" (199 / 2), Origin.lower, a⟩]
        ∧ (∀ sh : List Nat,
            Event.sliceNotice sh ∉ (stepHDU fname i tc ic ⟨nm, some (Payload.array a)⟩).events)) := by
  constructor
  · intro h2
    refine ⟨by simp [stepHDU, hdim, h2], by simp [stepHDU, hdim, h2],
      by simp [stepHDU, hdim, h2], rfl⟩
  · intro h2
    have hn2 : ¬ 2 < a.shape.length := by omega
    refine ⟨by simp [stepHDU, hdim, hn2], ?_⟩
    intro sh
    simp [stepHDU, hdim, hn2]

/-- Witness for claim C5 at a concrete 3-D cube and a concrete 2-D image:
the cube is reduced to its first plane with a notice, the image is used
unchanged. -/
theorem first_slice_selection_witness :
    (stepHDU "cube.fits" 1 0 0
        ⟨"CUBE", some (Payload.array ⟨[2, 2, 2], [1, 2, 3, 4, 5, 6, 7, 8]⟩)⟩).artifacts
      = [Artifact.png (pngFileName "cube.fits" 1)
          ⟨"viridis",
           simpleNormModel (firstSlice ⟨[2, 2, 2], [1, 2, 3, 4, 5, 6, 7, 8]⟩).data "sqrt" (199 / 2),
           Origin.lower, firstSlice ⟨[2, 2, 2], [1, 2, 3, 4, 5, 6, 7, 8]⟩⟩]
    ∧ Event.sliceNotice [2, 2, 2]
        ∈ (stepHDU "cube.fits" 1 0 0
            ⟨"CUBE", some (Payload.array ⟨[2, 2, 2], [1, 2, 3, 4, 5, 6, 7, 8]⟩)⟩).events
    ∧ (firstSlice (⟨[2, 2, 2], [1, 2, 3, 4, 5, 6, 7, 8]⟩ : NDArray)).shape = [2, 2]
    ∧ (∀ sh : List Nat,
        Event.sliceNotice sh ∉ (stepHDU "img.fits" 0 0 0
          ⟨"SCI", some (Payload.array ⟨[2, 3], [1, 2, 3, 4, 5, 6]⟩)⟩).events) := by
  have h1 := first_slice_selection "cube.fits" "CUBE" 1 0 0 ⟨[2, 2, 2], [1, 2, 3, 4, 5, 6, 7, 8]⟩
    (by decide)
  have h2 := first_slice_selection "img.fits" "SCI" 0 0 0 ⟨[2, 3], [1, 2, 3, 4, 5, 6]⟩
    (by decide)
  have hc := h1.1 (by decide)
  exact ⟨hc.1, hc.2.1, hc.2.2.2, (h2.2 (by decide)).2⟩

/-- Counterexample to claim C3 as stated: the CSV artifact name is not
built from the base name of the source file.  At the input path configured
in the script itself, which lies inside a directory, the emitted CSV name
keeps the directory part, unlike the base name derived one. -/
theorem csv_name_counterexample :
    (stepHDU fits_filename 1 0 0
        ⟨"ASN", some (Payload.table ⟨["MEMNAME"], [["X"]]⟩)⟩).artifacts.map artifactName
      = ["MAST_2025-12-18T13_08_21.848Z/HST/o5i301020_asn_table_1.csv"]
    ∧ pySplitextRoot (pyBasename fits_filename) ++ "_table_" ++ toString 1 ++ ".csv"
      = "o5i301020_asn_table_1.csv"
    ∧ ("MAST_2025-12-18T13_08_21.848Z/HST/o5i301020_asn_table_1.csv" : String)
      ≠ "o5i301020_asn_table_1.csv" := by
  refine ⟨by decide, by decide, by decide⟩

/-- Claim C3 amended: artifact names are deterministic, but the two kinds
derive differently from the source path: the CSV for the N-th table
extension (N the 1-based per-file table ordinal) is named from the full
input path with its extension removed, while the PNG for the image
extension at index i is named from the base name (directory stripped,
extension removed); the two coincide only when the input path has no
directory part. -/
theorem artifact_naming (fname nm nm2 : String) (i tc ic : Nat) (t : TableData) (a : NDArray)
    (hdim : 2 ≤ a.shape.length) :
    (stepHDU fname i tc ic ⟨nm, some (Payload.table t)⟩).artifacts.map artifactName
      = [pySplitextRoot fname ++ "_table_" ++ toString (tc + 1) ++ ".csv"]
    ∧ (stepHDU fname i tc ic ⟨nm2, some (Payload.array a)⟩).artifacts.map artifactName
      = [pySplitextRoot (pyBasename fname) ++ "_hdu" ++ toString i ++ "_image.png"] := by
  constructor
  · simp [stepHDU, artifactName, csvFileName]
  · by_cases h2 : 2 < a.shape.length <;>
      simp [stepHDU, hdim, h2, artifactName, pngFileName]

/-- Witness for claim C3 (amended) at a concrete path with a directory
part and a concrete table and image extension. -/
theorem artifact_naming_witness :
    (stepHDU "d/a.fits" 1 0 0
        ⟨"CAT", some (Payload.table ⟨["x"], [["1"]]⟩)⟩).artifacts.map artifactName
      = [pySplitextRoot "d/a.fits" ++ "_table_" ++ toString 1 ++ ".csv"]
    ∧ (stepHDU "d/a.fits" 2 0 0
        ⟨"SCI", some (Payload.array ⟨[2, 2], [0, 0, 0, 0]⟩)⟩).artifacts.map artifactName
      = [pySplitextRoot (pyBasename "d/a.fits") ++ "_hdu" ++ toString 2 ++ "_image.png"] := by
  have h := artifact_naming "d/a.fits" "CAT" "SCI" 2 0 0 ⟨["x"], [["1"]]⟩ ⟨[2, 2], [0, 0, 0, 0]⟩
    (by decide)
  have h1 := artifact_naming "d/a.fits" "CAT" "SCI" 1 0 0 ⟨["x"], [["1"]]⟩ ⟨[2, 2], [0, 0, 0, 0]⟩
    (by decide)
  exact ⟨h1.1, h.2⟩

/-- Counterexample to claim C4 as stated: the normalization is not clipped
at the 99.5th percentile and does not saturate the whole top 0.5 percent.
With pixel data 0,1,2,3,4 the upper cut level actually used is the 99.75th
percentile 399/100, while the 99.5th percentile is 199/50; the pixel value
797/200 lies above the 99.5th percentile yet is not saturated. -/
theorem norm_percentile_counterexample :
    (pngPanels (stepHDU "obs.fits" 0 0 0
        ⟨"SCI", some (Payload.array ⟨[1, 5], [0, 1, 2, 3, 4]⟩)⟩).artifacts).map Panel.norm
      = [⟨"sqrt", 1 / 100, 399 / 100⟩]
    ∧ percentileLinear [0, 1, 2, 3, 4] (199 / 2) = 199 / 50
    ∧ ((399 : ℚ) / 100) ≠ 199 / 50
    ∧ (199 : ℚ) / 50 < 797 / 200
    ∧ normApply ⟨"sqrt", 1 / 100, 399 / 100⟩ (797 / 200) < 1 := by
  have hsort : sortQ [0, 1, 2, 3, 4] = [0, 1, 2, 3, 4] := by
    norm_num [sortQ, insertSorted]
  have hlow : percentileLinear [0, 1, 2, 3, 4] ((100 - 199 / 2) / 2) = 1 / 100 := by
    simp only [percentileLinear, hsort]
    norm_num [List.getD, Int.toNat]
  have hhigh : percentileLinear [0, 1, 2, 3, 4] ((100 + 199 / 2) / 2) = 399 / 100 := by
    simp only [percentileLinear, hsort]
    norm_num [List.getD, Int.toNat]
  have h995 : percentileLinear [0, 1, 2, 3, 4] (199 / 2) = 199 / 50 := by
    simp only [percentileLinear, hsort]
    norm_num [List.getD, Int.toNat]
  refine ⟨?_, h995, by norm_num, by norm_num, by norm_num [normApply]⟩
  have hfirst : (pngPanels (stepHDU "obs.fits" 0 0 0
      ⟨"SCI", some (Payload.array ⟨[1, 5], [0, 1, 2, 3, 4]⟩)⟩).artifacts).map Panel.norm
      = [simpleNormModel [0, 1, 2, 3, 4] "sqrt" (199 / 2)] := rfl
  rw [hfirst]
  simp only [simpleNormModel]
  rw [hlow, hhigh]

/-- Claim C4 amended: the display normalization of every image extension
is the fixed policy simple_norm with a square root stretch and the
symmetric percentile interval keeping the central 99.5 percent of pixel
values: the lower cut is the 0.25th percentile and the upper cut the
99.75th percentile of the selected data, so the top and the bottom 0.25
percent are saturated; the saved PNG and all gallery panels use that one
normalization. -/
theorem norm_policy (fname nm : String) (i tc ic : Nat) (a : NDArray)
    (hdim : 2 ≤ a.shape.length) :
    (pngPanels (stepHDU fname i tc ic ⟨nm, some (Payload.array a)⟩).artifacts).map Panel.norm
      = [simpleNormModel (if 2 < a.shape.length then firstSlice a else a).data "sqrt" (199 / 2)]
    ∧ (∀ dat : List ℚ,
        simpleNormModel dat "sqrt" (199 / 2)
          = ⟨"sqrt", percentileLinear dat ((100 - 199 / 2) / 2),
              percentileLinear dat ((100 + 199 / 2) / 2)⟩)
    ∧ (∀ p ∈ galleryPanels (if 2 < a.shape.length then firstSlice a else a)
          (simpleNormModel (if 2 < a.shape.length then firstSlice a else a).data "sqrt" (199 / 2)),
        p.norm
          = simpleNormModel (if 2 < a.shape.length then firstSlice a else a).data "sqrt" (199 / 2))
    ∧ (∀ ns : NormSpec, ∀ v : ℚ, ns.vmax ≤ v → normApply ns v = 1)
    ∧ (∀ ns : NormSpec, ∀ v : ℚ, v ≤ ns.vmin → ¬ ns.vmax ≤ v → normApply ns v = 0) := by
  refine ⟨?_, fun dat => rfl, fun p hp => (galleryPanels_fields _ _ p hp).1,
    fun ns v hv => by simp [normApply, hv], fun ns v hv hv2 => by simp [normApply, hv, hv2]⟩
  by_cases h2 : 2 < a.shape.length <;> simp [stepHDU, hdim, h2, pngPanels]

/-- Witness for claim C4 (amended) at a concrete 1 by 5 image extension
and a concrete saturation instance. -/
theorem norm_policy_witness :
    (pngPanels (stepHDU "obs.fits" 0 0 0
        ⟨"SCI", some (Payload.array ⟨[1, 5], [0, 1, 2, 3, 4]⟩)⟩).artifacts).map Panel.norm
      = [simpleNormModel (if 2 < ([1, 5] : List Nat).length then
            firstSlice ⟨[1, 5], [0, 1, 2, 3, 4]⟩ else ⟨[1, 5], [0, 1, 2, 3, 4]⟩).data
          "sqrt" (199 / 2)]
    ∧ normApply ⟨"sqrt", 0, 1⟩ 2 = 1 := by
  have h := norm_policy "obs.fits" "SCI" 0 0 0 ⟨[1, 5], [0, 1, 2, 3, 4]⟩ (by decide)
  exact ⟨h.1, h.2.2.2.1 ⟨"sqrt", 0, 1⟩ 2 (by decide)⟩

/-- Witness for claim C1 at a concrete HDU without data. -/
theorem classification_total_exclusive_witness :
    (branchFlags ⟨"PRIMARY", none⟩).count true = 1
    ∧ classify ⟨"PRIMARY", none⟩ = Classification.noData := by
  have h := classification_total_exclusive ⟨"PRIMARY", none⟩
  exact ⟨h.1, h.2.1.mpr (by decide)⟩
